import Mathlib

/-!
Verification of the marketplaymaker edge-intelligence engine.

The repository's client scripts (bot/run-audit.py, bot/test-batch.py,
bot/test-full.py, ...) exercise a matching-aggregation-grading engine over
prediction markets.  The engine itself is not among the shipped source files:
only its callers are.  Following the specification, the engine components
(Question Matcher, Probability Aggregator, Edge Grader, Batch Orchestrator)
are modelled here from the spec's words; the client-side divergence
formatting is translated directly from the Python scripts.

Probabilities, confidences and divergences are rationals; quality scores are
naturals.
-/

/-- Modelled from the spec: normalized question text is abstracted as a list
of tokens (normalization — lowercasing, punctuation stripping, whitespace
collapsing — is folded into tokenization).  A token is a plain word, an
extracted numeric threshold, or an extracted date/period qualifier. -/
inductive Token where
  | word : String → Token
  | num : ℕ → Token
  | date : ℕ → Token
deriving DecidableEq

/-- A market snapshot: opaque id, tokenized question, current traded
probability, optional close time.  Immutable; the engine never mutates it. -/
structure Market where
  id : String
  question : List Token
  currentPrice : ℚ
  closeTime : Option ℕ
deriving DecidableEq

/-- A provider-specific candidate entity produced by a Source Adapter. -/
structure CandidateEntity where
  sourceKey : String
  externalId : String
  title : List Token
  outcomeProbability : Option ℚ
deriving DecidableEq

/-- Modelled from the spec: the outcome of one Source Adapter for one market.
`fetch = none` models a `SourceUnavailable` or `MalformedUpstreamPayload`
condition for that provider; `confidence` is the per-source confidence weight
attached to estimates derived from this provider. -/
structure SourceSnapshot where
  key : String
  confidence : ℚ
  fetch : Option (List CandidateEntity)
deriving DecidableEq

/-- The per-source validated probability estimate consumed by the
Probability Aggregator. -/
structure SourceEstimate where
  sourceKey : String
  probability : ℚ
  confidence : ℚ
  detail : String
  matchQuality : ℚ
  matchValidated : Bool
deriving DecidableEq

/-- Modelled from the spec: extract the salient numeric threshold of a
question — the first numeric token, if any. -/
def extractThreshold (ts : List Token) : Option ℕ :=
  ts.findSome? fun t =>
    match t with
    | Token.num n => some n
    | _ => none

/-- Modelled from the spec: extract the date/period qualifier of a question —
the first date token, if any. -/
def extractDate (ts : List Token) : Option ℕ :=
  ts.findSome? fun t =>
    match t with
    | Token.date d => some d
    | _ => none

/-- Modelled from the spec: the hard structural gate on numeric thresholds.
When a threshold is present on either side both must be present and agree
exactly; a market with no threshold against a candidate that has one is never
validated (ambiguous direction of comparison). -/
def thresholdsAgree (mq cand : List Token) : Bool :=
  match extractThreshold mq, extractThreshold cand with
  | some a, some b => a == b
  | some _, none => false
  | none, some _ => false
  | none, none => true

/-- Modelled from the spec: the structural gate on date/period qualifiers —
if the market names a specific period the candidate must reference the same
period. -/
def datesAgree (mq cand : List Token) : Bool :=
  match extractDate mq, extractDate cand with
  | some a, some b => a == b
  | some _, none => false
  | _, _ => true

/-- Modelled from the spec: token-overlap similarity of the normalized market
question and a candidate title: shared-token count over the larger length. -/
def tokenOverlap (mq cand : List Token) : ℚ :=
  (cand.filter (fun t => mq.contains t)).length / (max mq.length cand.length)

/-- Modelled from the spec: a candidate's score is a weighted combination of
token-overlap similarity and agreement bonuses for the extracted numeric
threshold and date qualifier. -/
def candidateScore (mq : List Token) (c : CandidateEntity) : ℚ :=
  tokenOverlap mq c.title
    + (if thresholdsAgree mq c.title then 1/4 else 0)
    + (if datesAgree mq c.title then 1/8 else 0)

/-- Modelled from the spec: the structural validation checks — numeric
thresholds and date qualifiers must pass their hard gates. -/
def structurallyValid (mq : List Token) (c : CandidateEntity) : Bool :=
  thresholdsAgree mq c.title && datesAgree mq c.title

/-- Modelled from the spec: the minimum match-quality threshold a best
candidate must exceed to count as a match at all. -/
def minMatchScore : ℚ := 1/2

/-- Modelled from the spec: pick between two candidates — the higher score
wins; a tie prefers the more specific (longer) qualifying title. -/
def preferCandidate (mq : List Token) (c b : CandidateEntity) : Bool :=
  decide (candidateScore mq b < candidateScore mq c)
    || (candidateScore mq c == candidateScore mq b
        && b.title.length < c.title.length)

/-- Modelled from the spec: the highest-scoring candidate of a source's
candidate sequence. -/
def bestCandidate (mq : List Token) (cands : List CandidateEntity) :
    Option CandidateEntity :=
  cands.foldl
    (fun acc c =>
      match acc with
      | none => some c
      | some b => if preferCandidate mq c b then some c else some b)
    none

/-- The Question Matcher's verdict for one source: the selected candidate,
its match-quality score, and the validation flag. -/
structure MatchVerdict where
  candidate : CandidateEntity
  matchQuality : ℚ
  matchValidated : Bool
deriving DecidableEq

/-- Modelled from the spec: the Question Matcher.  The highest-scoring
candidate is the match when its score exceeds the minimum-quality threshold;
`matchValidated` additionally requires the structural checks to pass. -/
def matchQuestion (mq : List Token) (cands : List CandidateEntity) :
    Option MatchVerdict :=
  match bestCandidate mq cands with
  | none => none
  | some c =>
      if minMatchScore < candidateScore mq c then
        some ⟨c, candidateScore mq c, structurallyValid mq c⟩
      else none

/-- Modelled from the spec: total confidence weight of a set of estimates. -/
def totalConf (ests : List SourceEstimate) : ℚ :=
  (ests.map (fun s => s.confidence)).sum

/-- Modelled from the spec: the Probability Aggregator's consensus — the
confidence-weighted average of the validated sources' probabilities, with the
unweighted arithmetic mean as fallback when all confidences are zero. -/
def consensus (ests : List SourceEstimate) : ℚ :=
  if totalConf ests = 0 then
    (ests.map (fun s => s.probability)).sum / ests.length
  else
    (ests.map (fun s => s.confidence * s.probability)).sum / totalConf ests

/-- Modelled from the spec: mean confidence across the validated sources. -/
def meanConf (ests : List SourceEstimate) : ℚ :=
  totalConf ests / ests.length

/-- The directional edge signal. -/
inductive EdgeSignal where
  | OVERPRICED : EdgeSignal
  | UNDERPRICED : EdgeSignal
  | NONE : EdgeSignal
deriving DecidableEq

/-- The discrete edge grade. -/
inductive EdgeGrade where
  | A : EdgeGrade
  | B : EdgeGrade
  | C : EdgeGrade
  | D : EdgeGrade
deriving DecidableEq

/-- The Edge Grader's configurable minimum-divergence-to-care threshold
(the spec's ε, e.g. three percentage points). -/
structure GraderConfig where
  eps : ℚ
deriving DecidableEq

/-- The default grader configuration: ε = 3 percentage points. -/
def defaultGrader : GraderConfig := ⟨3/100⟩

/-- Modelled from the spec: the directional signal — NONE when the divergence
is below the ε threshold in magnitude or no source is validated, otherwise
the sign of the divergence. -/
def edgeSignalOf (cfg : GraderConfig) (div : ℚ) (srcCount : ℕ) : EdgeSignal :=
  if srcCount = 0 then EdgeSignal.NONE
  else if |div| < cfg.eps then EdgeSignal.NONE
  else if 0 < div then EdgeSignal.UNDERPRICED
  else EdgeSignal.OVERPRICED

/-- Truncating floor of a nonnegative rational to a natural number. -/
def ratPoints (q : ℚ) : ℕ := (⌊q⌋).toNat

/-- Modelled from the spec: divergence-magnitude component of the quality
score, up to 50 points. -/
def divPoints (div : ℚ) : ℕ := min 50 (ratPoints (|div| * 250))

/-- Modelled from the spec: corroboration component of the quality score —
10 points per independent source, capped at 30 (diminishing returns beyond
about three sources). -/
def srcPoints (srcCount : ℕ) : ℕ := min (10 * srcCount) 30

/-- Modelled from the spec: mean-confidence component of the quality score,
up to 20 points. -/
def confPoints (mc : ℚ) : ℕ := min 20 (ratPoints (mc * 20))

/-- Modelled from the spec: the continuous quality score (0-100), increasing
in divergence magnitude, source count (with diminishing returns) and mean
source confidence; zero validated sources force a zero score. -/
def edgeQuality (div : ℚ) (srcCount : ℕ) (mc : ℚ) : ℕ :=
  if srcCount = 0 then 0
  else min 100 (divPoints div + srcPoints srcCount + confPoints mc)

/-- Modelled from the spec: the monotone total banding of quality into a
grade. -/
def edgeGradeOf (q : ℕ) : EdgeGrade :=
  if 75 ≤ q then EdgeGrade.A
  else if 50 ≤ q then EdgeGrade.B
  else if 25 ≤ q then EdgeGrade.C
  else EdgeGrade.D

/-- The terminal artifact returned to the caller for one market. -/
structure EdgeResult where
  market : Market
  sources : List SourceEstimate
  sourceCount : ℕ
  divergence : ℚ
  edgeSignal : EdgeSignal
  edgeGrade : EdgeGrade
  edgeQuality : ℕ
deriving DecidableEq

/-- Modelled from the spec: run the Question Matcher for one source and
produce its validated SourceEstimate, if any.  An unavailable source
(`fetch = none`), a source with no validated match, or a validated match
with no resolvable probability contributes nothing. -/
def estimateFor (m : Market) (snap : SourceSnapshot) : Option SourceEstimate :=
  match snap.fetch with
  | none => none
  | some cands =>
      match matchQuestion m.question cands with
      | none => none
      | some v =>
          if v.matchValidated then
            match v.candidate.outcomeProbability with
            | some p =>
                some ⟨snap.key, p, snap.confidence, snap.key,
                      v.matchQuality, true⟩
            | none => none
          else none

/-- Modelled from the spec: the single-market pipeline — match each source,
aggregate the validated estimates, grade the divergence.  Zero validated
sources short-circuit to the empty result with the lowest grade. -/
def analyzeOne (cfg : GraderConfig) (m : Market)
    (snaps : List SourceSnapshot) : EdgeResult :=
  let ests := snaps.filterMap (estimateFor m)
  match ests with
  | [] => ⟨m, [], 0, 0, EdgeSignal.NONE, EdgeGrade.D, 0⟩
  | _ :: _ =>
      let cons := consensus ests
      let div := cons - m.currentPrice
      let n := ests.length
      let q := edgeQuality div n (meanConf ests)
      ⟨m, ests, n, div, edgeSignalOf cfg div n, edgeGradeOf q, q⟩

/-- The descending-quality ordering used to rank batch results. -/
def qualityGE (a b : EdgeResult) : Prop := b.edgeQuality ≤ a.edgeQuality

instance : DecidableRel qualityGE := fun a b => Nat.decLe b.edgeQuality a.edgeQuality

instance : IsTotal EdgeResult qualityGE :=
  ⟨fun a b => le_total b.edgeQuality a.edgeQuality⟩

instance : IsTrans EdgeResult qualityGE :=
  ⟨fun _ _ _ h1 h2 => le_trans h2 h1⟩

/-- Modelled from the spec: rank a batch's results by descending quality. -/
def sortByQuality (rs : List EdgeResult) : List EdgeResult :=
  List.insertionSort qualityGE rs

/-- Modelled from the spec: the Batch Orchestrator — truncate the market
list to `maxMarkets`, run the single-market pipeline per market, and return
the results sorted by descending edge quality.  `data` gives each market's
per-source adapter outcomes. -/
def analyzeBatch (cfg : GraderConfig) (markets : List Market)
    (maxMarkets : ℕ) (data : Market → List SourceSnapshot) : List EdgeResult :=
  sortByQuality ((markets.take maxMarkets).map (fun m => analyzeOne cfg m (data m)))

/-- Orchestrator configuration: the grader settings and the retry-after
duration reported when the outbound rate budget is exhausted. -/
structure OrchestratorConfig where
  grader : GraderConfig
  retryAfter : ℕ
deriving DecidableEq

/-- The outcome of a budgeted batch: either every admitted market completed,
or the rate budget ran out and the completed results are returned together
with a structured rate-limited condition carrying a retry-after duration. -/
inductive BatchOutcome where
  | complete : List EdgeResult → BatchOutcome
  | rateLimited : List EdgeResult → ℕ → BatchOutcome
deriving DecidableEq

/-- Outbound-call cost of analyzing one market: one call per source. -/
def sourceCost (snaps : List SourceSnapshot) : ℕ := snaps.length

/-- Modelled from the spec: the Batch Orchestrator under the outbound
rate-limit budget.  Each market's per-source calls are admitted only while
budget remains; once the budget cannot cover the next market, no new
per-market work is admitted and the completed results are returned with a
rate-limited condition carrying the retry-after duration. -/
def runBudgeted (cfg : OrchestratorConfig) (data : Market → List SourceSnapshot) :
    ℕ → List Market → BatchOutcome
  | _, [] => BatchOutcome.complete []
  | budget, m :: ms =>
      if sourceCost (data m) ≤ budget then
        match runBudgeted cfg data (budget - sourceCost (data m)) ms with
        | BatchOutcome.complete rs =>
            BatchOutcome.complete (analyzeOne cfg.grader m (data m) :: rs)
        | BatchOutcome.rateLimited rs ra =>
            BatchOutcome.rateLimited (analyzeOne cfg.grader m (data m) :: rs) ra
      else BatchOutcome.rateLimited [] cfg.retryAfter

/-- The prefix of markets the budgeted orchestrator admits before the rate
budget runs out. -/
def admitted (data : Market → List SourceSnapshot) :
    ℕ → List Market → List Market
  | _, [] => []
  | budget, m :: ms =>
      if sourceCost (data m) ≤ budget then
        m :: admitted data (budget - sourceCost (data m)) ms
      else []

/-- A JSON value for the `divergence` field of a result object on the wire:
JSON null (Python `None`) or a number. -/
inductive PyVal where
  | null : PyVal
  | num : ℚ → PyVal
deriving DecidableEq

/-- A response result object as the client scripts consume it: the
`divergence` field may be absent, null, or a number. -/
structure ResultObj where
  divergence : Option PyVal
deriving DecidableEq

/-- Python truthiness for the values the divergence field can take:
`None` and `0` are falsy. -/
def pyTruthy : PyVal → Bool
  | PyVal.null => false
  | PyVal.num q => decide (q ≠ 0)

/-- The scripts' `r.get` call with default `0`: the field's value when the
key is present, the number `0` otherwise. -/
def getDivergence (r : ResultObj) : PyVal :=
  r.divergence.getD (PyVal.num 0)

/-- Python `v or 0`: `v` when truthy, else `0`. -/
def pyOrZero (v : PyVal) : ℚ :=
  if pyTruthy v then
    match v with
    | PyVal.null => 0
    | PyVal.num q => q
  else 0

/-- The `div` binding shared by run-audit.py (line 43), test-batch.py
(line 36) and test-full.py (line 36): `r.get` of the divergence key with
default 0, then `or 0`. -/
def divOf (r : ResultObj) : ℚ := pyOrZero (getDivergence r)

/-- The divergence formatting of test-single.py (line 46), test-politics.py
(line 48) and test-targeted.py (line 33): `d.get` of the divergence key with
default 0 passed straight to the `+.1%` format, with no `or 0`.  The format
accepts a number and raises TypeError on Python `None`; the `none` outcome
models that failure. -/
def formatNoCoerce (r : ResultObj) : Option ℚ :=
  match getDivergence r with
  | PyVal.null => none
  | PyVal.num q => some q

/-- The spec's scenario market: Bitcoin above the 68000 threshold, traded at
a current price of two fifths. -/
def btcTokens : List Token :=
  [Token.word "bitcoin", Token.word "above", Token.num 68000]

/-- The scenario market snapshot at currentPrice 0.40. -/
def btcMarket : Market := ⟨"mkt-btc-68000", btcTokens, 2/5, none⟩

/-- A source candidate for the same proposition, reporting probability
0.55. -/
def btcCandidate : CandidateEntity :=
  ⟨"forecast", "ext-1", btcTokens, some (11/20)⟩

/-- The scenario's single validated source: confidence 0.8, one candidate
matching the market question exactly. -/
def btcSnap : SourceSnapshot := ⟨"forecast", 4/5, some [btcCandidate]⟩

/-- The estimate the pipeline derives from the scenario source. -/
def btcEst : SourceEstimate := ⟨"forecast", 11/20, 4/5, "forecast", 11/8, true⟩

/-- A candidate worded identically to the scenario market except for the
numeric threshold (85000 instead of 68000). -/
def btc85Candidate : CandidateEntity :=
  ⟨"forecast", "ext-2",
   [Token.word "bitcoin", Token.word "above", Token.num 85000], some (7/10)⟩

/-- A market identical to the scenario market except traded at 0.54, so the
pipeline's divergence is +0.01 — positive but below the ε threshold. -/
def nearMarket : Market := ⟨"mkt-btc-near", btcTokens, 27/50, none⟩

/-- Three source adapters that are all unreachable. -/
def failSnaps : List SourceSnapshot :=
  [⟨"forecast", 4/5, none⟩, ⟨"peer", 3/5, none⟩, ⟨"book", 1/2, none⟩]

/-- Provider data in which every source is unreachable for every market. -/
def failData : Market → List SourceSnapshot := fun _ => failSnaps

/-- A batch of ten market snapshots. -/
def tenMarkets : List Market := List.replicate 10 btcMarket

theorem listSum_ones (l : List SourceEstimate) :
    (l.map fun _ => (1 : ℚ)).sum = l.length := by
  induction l with
  | nil => simp
  | cons a t ih => simp [ih, add_comm]

theorem listSum_div (l : List SourceEstimate) (f : SourceEstimate → ℚ)
    (T : ℚ) : (l.map fun s => f s / T).sum = (l.map f).sum / T := by
  induction l with
  | nil => simp
  | cons a t ih => simp [ih, div_add_div_same]

theorem consensus_unit (ests : List SourceEstimate) (hne : ests ≠ [])
    (hb : ∀ s ∈ ests, 0 ≤ s.probability ∧ s.probability ≤ 1 ∧ 0 ≤ s.confidence) :
    0 ≤ consensus ests ∧ consensus ests ≤ 1 := by
  have hlen : 0 < (ests.length : ℚ) := by
    have : ests.length ≠ 0 := fun h => hne (List.length_eq_zero.mp h)
    exact_mod_cast Nat.pos_of_ne_zero this
  unfold consensus
  by_cases hT : totalConf ests = 0
  · simp only [hT, eq_self_iff_true, if_true]
    constructor
    · apply div_nonneg _ (le_of_lt hlen)
      apply List.sum_nonneg
      intro x hx
      obtain ⟨s, hs, rfl⟩ := List.mem_map.mp hx
      exact (hb s hs).1
    · rw [div_le_one hlen]
      calc (ests.map fun s => s.probability).sum
          ≤ (ests.map fun _ => (1 : ℚ)).sum :=
            List.sum_le_sum fun s hs => (hb s hs).2.1
        _ = ests.length := listSum_ones ests
  · simp only [hT, eq_self_iff_true, if_false, if_neg hT]
    have hTnn : 0 ≤ totalConf ests := by
      apply List.sum_nonneg
      intro x hx
      obtain ⟨s, hs, rfl⟩ := List.mem_map.mp hx
      exact (hb s hs).2.2
    have hTpos : 0 < totalConf ests := lt_of_le_of_ne hTnn (Ne.symm hT)
    constructor
    · apply div_nonneg _ hTnn
      apply List.sum_nonneg
      intro x hx
      obtain ⟨s, hs, rfl⟩ := List.mem_map.mp hx
      exact mul_nonneg (hb s hs).2.2 (hb s hs).1
    · rw [div_le_one hTpos]
      apply List.sum_le_sum
      intro s hs
      exact mul_le_of_le_one_right (hb s hs).2.2 (hb s hs).2.1

theorem btc_estimate : estimateFor btcMarket btcSnap = some btcEst := by
  simp [estimateFor, matchQuestion, bestCandidate, preferCandidate,
        candidateScore, tokenOverlap, thresholdsAgree, datesAgree,
        extractThreshold, extractDate, structurallyValid, minMatchScore,
        btcSnap, btcMarket, btcCandidate, btcTokens, btcEst]
  norm_num

theorem near_estimate : estimateFor nearMarket btcSnap = some btcEst := by
  simp [estimateFor, matchQuestion, bestCandidate, preferCandidate,
        candidateScore, tokenOverlap, thresholdsAgree, datesAgree,
        extractThreshold, extractDate, structurallyValid, minMatchScore,
        btcSnap, nearMarket, btcCandidate, btcTokens, btcEst]
  norm_num

theorem consensus_btc : consensus [btcEst] = 11/20 := by
  simp [consensus, totalConf, btcEst]

theorem meanConf_btc : meanConf [btcEst] = 4/5 := by
  simp [meanConf, totalConf, btcEst]

theorem analyzeOne_btc :
    analyzeOne defaultGrader btcMarket [btcSnap] =
      ⟨btcMarket, [btcEst], 1, 3/20, EdgeSignal.UNDERPRICED, EdgeGrade.B, 63⟩ := by
  have hf : List.filterMap (estimateFor btcMarket) [btcSnap] = [btcEst] := by
    simp [btc_estimate]
  simp only [analyzeOne, hf]
  rw [consensus_btc]
  have hdiv : (11 : ℚ)/20 - btcMarket.currentPrice = 3/20 := by
    simp [btcMarket]; norm_num
  rw [hdiv, meanConf_btc]
  have hq : edgeQuality (3/20) 1 (4/5) = 63 := by
    simp [edgeQuality, divPoints, srcPoints, confPoints, ratPoints]
    norm_num [abs_of_pos]
    decide
  simp only [List.length_singleton]
  rw [hq]
  have hs : edgeSignalOf defaultGrader (3/20) 1 = EdgeSignal.UNDERPRICED := by
    simp [edgeSignalOf, defaultGrader]
    norm_num [abs_of_pos]
  rw [hs]
  simp [edgeGradeOf]

theorem analyzeOne_near :
    analyzeOne defaultGrader nearMarket [btcSnap] =
      ⟨nearMarket, [btcEst], 1, 1/100, EdgeSignal.NONE, EdgeGrade.C, 28⟩ := by
  have hf : List.filterMap (estimateFor nearMarket) [btcSnap] = [btcEst] := by
    simp [near_estimate]
  simp only [analyzeOne, hf]
  rw [consensus_btc]
  have hdiv : (11 : ℚ)/20 - nearMarket.currentPrice = 1/100 := by
    simp [nearMarket]; norm_num
  rw [hdiv, meanConf_btc]
  have hq : edgeQuality (1/100) 1 (4/5) = 28 := by
    simp [edgeQuality, divPoints, srcPoints, confPoints, ratPoints]
    norm_num [abs_of_pos]
    decide
  simp only [List.length_singleton]
  rw [hq]
  have hs : edgeSignalOf defaultGrader (1/100) 1 = EdgeSignal.NONE := by
    simp [edgeSignalOf, defaultGrader]
    norm_num [abs_of_pos]
  rw [hs]
  simp [edgeGradeOf]

theorem analyzeOne_empty (cfg : GraderConfig) (m : Market)
    (snaps : List SourceSnapshot)
    (h : snaps.filterMap (estimateFor m) = []) :
    analyzeOne cfg m snaps =
      ⟨m, [], 0, 0, EdgeSignal.NONE, EdgeGrade.D, 0⟩ := by
  simp only [analyzeOne, h]

theorem analyzeOne_cons (cfg : GraderConfig) (m : Market)
    (snaps : List SourceSnapshot) (e : SourceEstimate)
    (t : List SourceEstimate)
    (h : snaps.filterMap (estimateFor m) = e :: t) :
    analyzeOne cfg m snaps =
      ⟨m, e :: t, (e :: t).length, consensus (e :: t) - m.currentPrice,
       edgeSignalOf cfg (consensus (e :: t) - m.currentPrice) (e :: t).length,
       edgeGradeOf
         (edgeQuality (consensus (e :: t) - m.currentPrice) (e :: t).length
           (meanConf (e :: t))),
       edgeQuality (consensus (e :: t) - m.currentPrice) (e :: t).length
         (meanConf (e :: t))⟩ := by
  simp only [analyzeOne, h]

theorem analyzeOne_zero_floor (cfg : GraderConfig) (m : Market)
    (snaps : List SourceSnapshot)
    (h : (analyzeOne cfg m snaps).sourceCount = 0) :
    analyzeOne cfg m snaps =
      ⟨m, [], 0, 0, EdgeSignal.NONE, EdgeGrade.D, 0⟩ := by
  cases hf : snaps.filterMap (estimateFor m) with
  | nil => exact analyzeOne_empty cfg m snaps hf
  | cons e t =>
      rw [analyzeOne_cons cfg m snaps e t hf] at h
      simp at h

theorem analyzeOne_signal_link (cfg : GraderConfig) (m : Market)
    (snaps : List SourceSnapshot) :
    (analyzeOne cfg m snaps).edgeSignal =
      edgeSignalOf cfg (analyzeOne cfg m snaps).divergence
        (analyzeOne cfg m snaps).sourceCount := by
  cases hf : snaps.filterMap (estimateFor m) with
  | nil => rw [analyzeOne_empty cfg m snaps hf]; simp [edgeSignalOf]
  | cons e t => rw [analyzeOne_cons cfg m snaps e t hf]

/-- C1: for every analysis with at least one validated source, the consensus
is the confidence-weighted average of the sources' probabilities with weights
normalized to sum to 1 (unweighted mean when all confidences are zero), and
the divergence, consensus minus current price, is a signed value in [-1, 1];
in the scenario — market at price 0.40, one validated source with
probability 0.55 and confidence 0.8 — the divergence is +0.15, the signal is
UNDERPRICED and the source count is 1. -/
theorem aggregator_weighted_consensus :
    (∀ (ests : List SourceEstimate) (price : ℚ),
      ests ≠ [] →
      (∀ s ∈ ests, 0 ≤ s.probability ∧ s.probability ≤ 1 ∧ 0 ≤ s.confidence) →
      0 ≤ price → price ≤ 1 →
      (totalConf ests ≠ 0 →
        (ests.map fun s => s.confidence / totalConf ests).sum = 1 ∧
        consensus ests =
          (ests.map fun s => s.confidence / totalConf ests * s.probability).sum) ∧
      (totalConf ests = 0 →
        consensus ests = (ests.map fun s => s.probability).sum / ests.length) ∧
      (-1 ≤ consensus ests - price ∧ consensus ests - price ≤ 1)) ∧
    ((analyzeOne defaultGrader btcMarket [btcSnap]).divergence = 3/20 ∧
     (analyzeOne defaultGrader btcMarket [btcSnap]).edgeSignal =
       EdgeSignal.UNDERPRICED ∧
     (analyzeOne defaultGrader btcMarket [btcSnap]).sourceCount = 1) := by
  constructor
  · intro ests price hne hb hp0 hp1
    refine ⟨fun hT => ⟨?_, ?_⟩, fun hT => ?_, ?_⟩
    · rw [listSum_div ests (fun s => s.confidence) (totalConf ests)]
      exact div_self hT
    · have hmap :
          (ests.map fun s => s.confidence / totalConf ests * s.probability).sum
            = (ests.map fun s => s.confidence * s.probability).sum
                / totalConf ests := by
        simp only [div_mul_eq_mul_div]
        exact listSum_div ests (fun s => s.confidence * s.probability)
          (totalConf ests)
      rw [hmap]
      simp [consensus, hT]
    · simp [consensus, hT]
    · have hu := consensus_unit ests hne hb
      constructor
      · linarith [hu.1]
      · linarith [hu.2]
  · rw [analyzeOne_btc]
    exact ⟨rfl, rfl, rfl⟩

/-- Witness for C1 at the scenario input: one validated source with
probability 0.55 and confidence 0.8 against a price of 0.40. -/
theorem aggregator_weighted_consensus_witness :
    -1 ≤ consensus [btcEst] - 2/5 ∧ consensus [btcEst] - 2/5 ≤ 1 :=
  (aggregator_weighted_consensus.1 [btcEst] (2/5)
    (by simp)
    (by
      intro s hs
      rw [List.mem_singleton] at hs
      subst hs
      refine ⟨?_, ?_, ?_⟩ <;> simp [btcEst] <;> norm_num)
    (by norm_num) (by norm_num)).2.2

/-- C2 counterexample: a result produced by the pipeline with a positive
source count and a strictly positive divergence of +0.01 — below the default
ε of three percentage points — whose edge signal is not UNDERPRICED, refuting
the unconditional sign rule of the claim. -/
theorem edge_signal_sign_counterexample :
    0 < (analyzeOne defaultGrader nearMarket [btcSnap]).sourceCount ∧
    0 < (analyzeOne defaultGrader nearMarket [btcSnap]).divergence ∧
    (analyzeOne defaultGrader nearMarket [btcSnap]).edgeSignal ≠
      EdgeSignal.UNDERPRICED := by
  rw [analyzeOne_near]
  refine ⟨by norm_num, by norm_num, by simp⟩

/-- C2 (amended): for every result of the pipeline, a zero source count
forces the NONE signal; with a positive source count, a divergence at or
above ε yields UNDERPRICED, a divergence at or below -ε yields OVERPRICED,
and a divergence below ε in magnitude yields NONE. -/
theorem edge_signal_thresholded (cfg : GraderConfig) (m : Market)
    (snaps : List SourceSnapshot) (heps : 0 < cfg.eps) :
    ((analyzeOne cfg m snaps).sourceCount = 0 →
      (analyzeOne cfg m snaps).edgeSignal = EdgeSignal.NONE) ∧
    (0 < (analyzeOne cfg m snaps).sourceCount →
      (cfg.eps ≤ (analyzeOne cfg m snaps).divergence →
        (analyzeOne cfg m snaps).edgeSignal = EdgeSignal.UNDERPRICED) ∧
      ((analyzeOne cfg m snaps).divergence ≤ -cfg.eps →
        (analyzeOne cfg m snaps).edgeSignal = EdgeSignal.OVERPRICED) ∧
      (|(analyzeOne cfg m snaps).divergence| < cfg.eps →
        (analyzeOne cfg m snaps).edgeSignal = EdgeSignal.NONE)) := by
  rw [analyzeOne_signal_link cfg m snaps]
  set r := analyzeOne cfg m snaps with hr
  constructor
  · intro h0
    simp [edgeSignalOf, h0]
  · intro hpos
    have hne : r.sourceCount ≠ 0 := Nat.pos_iff_ne_zero.mp hpos
    refine ⟨?_, ?_, ?_⟩
    · intro hge
      have habs : ¬ |r.divergence| < cfg.eps := by
        rw [not_lt]
        calc cfg.eps ≤ r.divergence := hge
          _ ≤ |r.divergence| := le_abs_self r.divergence
      have hdpos : 0 < r.divergence := lt_of_lt_of_le heps hge
      simp [edgeSignalOf, hne, habs, hdpos]
    · intro hle
      have habs : ¬ |r.divergence| < cfg.eps := by
        rw [not_lt]
        calc cfg.eps ≤ -r.divergence := by linarith
          _ ≤ |r.divergence| := neg_le_abs r.divergence
      have hdneg : ¬ 0 < r.divergence := by
        rw [not_lt]
        linarith
      simp [edgeSignalOf, hne, habs, hdneg]
    · intro habs
      simp [edgeSignalOf, hne, habs]

/-- Witness for C2 (amended) at the near-threshold scenario input. -/
theorem edge_signal_thresholded_witness :
    (analyzeOne defaultGrader nearMarket [btcSnap]).edgeSignal =
      EdgeSignal.NONE := by
  have h := (edge_signal_thresholded defaultGrader nearMarket [btcSnap]
    (by norm_num [defaultGrader])).2
  have hpos : 0 < (analyzeOne defaultGrader nearMarket [btcSnap]).sourceCount := by
    rw [analyzeOne_near]
    norm_num
  have habs :
      |(analyzeOne defaultGrader nearMarket [btcSnap]).divergence|
        < defaultGrader.eps := by
    rw [analyzeOne_near]
    norm_num [defaultGrader, abs_of_pos]
  exact (h hpos).2.2 habs

/-- C3: every result produced by the single-market pipeline or by the batch
orchestrator with a zero source count has grade D, signal NONE and quality
0. -/
theorem zero_sources_floor :
    (∀ (cfg : GraderConfig) (m : Market) (snaps : List SourceSnapshot),
      (analyzeOne cfg m snaps).sourceCount = 0 →
      (analyzeOne cfg m snaps).edgeGrade = EdgeGrade.D ∧
      (analyzeOne cfg m snaps).edgeSignal = EdgeSignal.NONE ∧
      (analyzeOne cfg m snaps).edgeQuality = 0) ∧
    (∀ (cfg : GraderConfig) (markets : List Market) (maxM : ℕ)
      (data : Market → List SourceSnapshot) (r : EdgeResult),
      r ∈ analyzeBatch cfg markets maxM data →
      r.sourceCount = 0 →
      r.edgeGrade = EdgeGrade.D ∧ r.edgeSignal = EdgeSignal.NONE ∧
      r.edgeQuality = 0) := by
  constructor
  · intro cfg m snaps h
    rw [analyzeOne_zero_floor cfg m snaps h]
    exact ⟨rfl, rfl, rfl⟩
  · intro cfg markets maxM data r hr h0
    have hperm :=
      List.perm_insertionSort qualityGE
        ((markets.take maxM).map (fun m => analyzeOne cfg m (data m)))
    rw [analyzeBatch, sortByQuality] at hr
    have hmem := hperm.mem_iff.mp hr
    obtain ⟨m, _, rfl⟩ := List.mem_map.mp hmem
    rw [analyzeOne_zero_floor cfg m (data m) h0]
    exact ⟨rfl, rfl, rfl⟩

/-- Witness for C3: a market all of whose sources are unreachable. -/
theorem zero_sources_floor_witness :
    (analyzeOne defaultGrader btcMarket failSnaps).edgeGrade = EdgeGrade.D ∧
    (analyzeOne defaultGrader btcMarket failSnaps).edgeSignal =
      EdgeSignal.NONE ∧
    (analyzeOne defaultGrader btcMarket failSnaps).edgeQuality = 0 :=
  zero_sources_floor.1 defaultGrader btcMarket failSnaps (by
    rw [analyzeOne_empty defaultGrader btcMarket failSnaps
      (by simp [failSnaps, estimateFor])])

/-- C4: the Question Matcher never validates a candidate whose extracted
numeric threshold differs from the market's, however high the text
similarity; in particular the 68000-threshold market matched against the
identically-worded 85000-threshold candidate yields an unvalidated match. -/
theorem threshold_gate :
    (∀ (mq : List Token) (cands : List CandidateEntity) (v : MatchVerdict)
      (a b : ℕ),
      matchQuestion mq cands = some v →
      extractThreshold mq = some a →
      extractThreshold v.candidate.title = some b →
      a ≠ b → v.matchValidated = false) ∧
    (Option.map (fun v => v.matchValidated)
        (matchQuestion btcTokens [btc85Candidate]) = some false) := by
  constructor
  · intro mq cands v a b hm hma hmb hab
    cases hbc : bestCandidate mq cands with
    | none =>
        simp only [matchQuestion, hbc] at hm
        cases hm
    | some c =>
        simp only [matchQuestion, hbc] at hm
        by_cases hs : minMatchScore < candidateScore mq c
        · rw [if_pos hs] at hm
          have hv : v = ⟨c, candidateScore mq c, structurallyValid mq c⟩ :=
            (Option.some.inj hm).symm
          subst hv
          simp only at hmb
          have hfalse : thresholdsAgree mq c.title = false := by
            unfold thresholdsAgree
            rw [hma, hmb]
            exact beq_eq_false_iff_ne.mpr hab
          simp only [structurallyValid, hfalse, Bool.false_and]
        · rw [if_neg hs] at hm
          cases hm
  · simp [matchQuestion, bestCandidate, preferCandidate, candidateScore,
          tokenOverlap, thresholdsAgree, datesAgree, extractThreshold,
          extractDate, structurallyValid, minMatchScore, btc85Candidate,
          btcTokens]
    norm_num

/-- Witness for C4: the matcher's verdict on the 85000-threshold candidate
against the 68000-threshold market is unvalidated. -/
theorem threshold_gate_witness :
    (⟨btc85Candidate, 19/24, false⟩ : MatchVerdict).matchValidated = false :=
  threshold_gate.1 btcTokens [btc85Candidate]
    ⟨btc85Candidate, 19/24, false⟩ 68000 85000
    (by
      simp [matchQuestion, bestCandidate, preferCandidate, candidateScore,
            tokenOverlap, thresholdsAgree, datesAgree, extractThreshold,
            extractDate, structurallyValid, minMatchScore, btc85Candidate,
            btcTokens]
      norm_num)
    rfl rfl (by decide)

/-- C5: holding source count and mean confidence fixed, the quality score is
non-decreasing in the divergence magnitude; holding divergence and mean
confidence fixed, it is non-decreasing in the source count (hence in
particular up to the diminishing-returns cap). -/
theorem quality_monotone :
    (∀ (n : ℕ) (mc d₁ d₂ : ℚ), |d₁| ≤ |d₂| →
      edgeQuality d₁ n mc ≤ edgeQuality d₂ n mc) ∧
    (∀ (d mc : ℚ) (n₁ n₂ : ℕ), n₁ ≤ n₂ →
      edgeQuality d n₁ mc ≤ edgeQuality d n₂ mc) := by
  constructor
  · intro n mc d₁ d₂ h
    have hd : divPoints d₁ ≤ divPoints d₂ := by
      unfold divPoints ratPoints
      have h1 : |d₁| * 250 ≤ |d₂| * 250 :=
        mul_le_mul_of_nonneg_right h (by norm_num)
      have h2 : ⌊|d₁| * 250⌋ ≤ ⌊|d₂| * 250⌋ := Int.floor_le_floor h1
      exact min_le_min le_rfl (Int.toNat_le_toNat h2)
    unfold edgeQuality
    split_ifs <;> omega
  · intro d mc n₁ n₂ h
    unfold edgeQuality srcPoints
    split_ifs <;> omega

/-- Witness for C5: a larger divergence magnitude and a larger source count
each weakly raise the quality score at concrete inputs. -/
theorem quality_monotone_witness :
    edgeQuality (1/10) 1 (4/5) ≤ edgeQuality (3/20) 1 (4/5) ∧
    edgeQuality (3/20) 1 (4/5) ≤ edgeQuality (3/20) 2 (4/5) :=
  ⟨quality_monotone.1 1 (4/5) (1/10) (3/20) (by norm_num [abs_of_pos]),
   quality_monotone.2 (3/20) (4/5) 1 2 (by norm_num)⟩

/-- C6: the batch result is sorted by descending edge quality, and for any
completion order of the underlying per-market work — any permutation of the
per-market results — ranking still yields a list sorted by descending
quality that is a permutation of the batch output, so completion order never
leaks into result order. -/
theorem batch_sorted_by_quality :
    (∀ (cfg : GraderConfig) (markets : List Market) (maxM : ℕ)
      (data : Market → List SourceSnapshot),
      (analyzeBatch cfg markets maxM data).Sorted qualityGE) ∧
    (∀ (cfg : GraderConfig) (markets : List Market) (maxM : ℕ)
      (data : Market → List SourceSnapshot) (completed : List EdgeResult),
      List.Perm completed
        ((markets.take maxM).map (fun m => analyzeOne cfg m (data m))) →
      (sortByQuality completed).Sorted qualityGE ∧
      List.Perm (sortByQuality completed)
        (analyzeBatch cfg markets maxM data)) := by
  constructor
  · intro cfg markets maxM data
    exact List.sorted_insertionSort qualityGE _
  · intro cfg markets maxM data completed hperm
    refine ⟨List.sorted_insertionSort qualityGE completed, ?_⟩
    have h1 := List.perm_insertionSort qualityGE completed
    have h2 := List.perm_insertionSort qualityGE
      ((markets.take maxM).map (fun m => analyzeOne cfg m (data m)))
    exact (h1.trans hperm).trans h2.symm

/-- Witness for C6: ranking the per-market results of the ten-market batch
in their arrival order yields a quality-sorted list. -/
theorem batch_sorted_by_quality_witness :
    (sortByQuality ((tenMarkets.take 10).map
        (fun m => analyzeOne defaultGrader m (failData m)))).Sorted
      qualityGE :=
  (batch_sorted_by_quality.2 defaultGrader tenMarkets 10 failData _
    (List.Perm.refl _)).1

/-- C7: an unavailable Source Adapter is transparent — the single-market
pipeline on the remaining sources produces the same result — and a batch in
which every adapter fails for every market still returns one result per
admitted market, each with source count 0 and grade D, rather than an
error. -/
theorem partial_failure_tolerated :
    (∀ (cfg : GraderConfig) (m : Market) (pre post : List SourceSnapshot)
      (key : String) (conf : ℚ),
      analyzeOne cfg m (pre ++ ⟨key, conf, none⟩ :: post) =
        analyzeOne cfg m (pre ++ post)) ∧
    (∀ (cfg : GraderConfig) (markets : List Market) (maxM : ℕ)
      (data : Market → List SourceSnapshot),
      (∀ (m : Market), ∀ s ∈ data m, s.fetch = none) →
      (analyzeBatch cfg markets maxM data).length = min maxM markets.length ∧
      ∀ r ∈ analyzeBatch cfg markets maxM data,
        r.sourceCount = 0 ∧ r.edgeGrade = EdgeGrade.D) := by
  constructor
  · intro cfg m pre post key conf
    have hnone : estimateFor m ⟨key, conf, none⟩ = none := rfl
    have h : (pre ++ ⟨key, conf, none⟩ :: post).filterMap (estimateFor m) =
        (pre ++ post).filterMap (estimateFor m) := by
      simp [List.filterMap_append, List.filterMap_cons, hnone]
    unfold analyzeOne
    rw [h]
  · intro cfg markets maxM data hall
    have hfm : ∀ m : Market, (data m).filterMap (estimateFor m) = [] := by
      intro m
      rw [List.filterMap_eq_nil_iff]
      intro s hs
      have hf := hall m s hs
      cases s with
      | mk k c f =>
          simp only at hf
          subst hf
          rfl
    have hperm :=
      List.perm_insertionSort qualityGE
        ((markets.take maxM).map (fun m => analyzeOne cfg m (data m)))
    constructor
    · rw [analyzeBatch, sortByQuality, hperm.length_eq, List.length_map,
          List.length_take]
    · intro r hr
      rw [analyzeBatch, sortByQuality] at hr
      have hmem := hperm.mem_iff.mp hr
      obtain ⟨m, _, rfl⟩ := List.mem_map.mp hmem
      rw [analyzeOne_empty cfg m (data m) (hfm m)]
      exact ⟨rfl, rfl⟩

/-- Witness for C7: a batch of ten markets in which every one of the three
sources is unreachable still yields ten graded results. -/
theorem partial_failure_tolerated_witness :
    (analyzeBatch defaultGrader tenMarkets 10 failData).length = 10 ∧
    ∀ r ∈ analyzeBatch defaultGrader tenMarkets 10 failData,
      r.sourceCount = 0 ∧ r.edgeGrade = EdgeGrade.D := by
  have h := partial_failure_tolerated.2 defaultGrader tenMarkets 10 failData
    (by
      intro m s hs
      simp only [failData, failSnaps] at hs
      fin_cases hs <;> rfl)
  refine ⟨?_, h.2⟩
  rw [h.1]
  simp [tenMarkets]

/-- C8: when the outbound budget covers every market the budgeted
orchestrator completes the whole batch; when the budget is exhausted it stops
admitting new per-market work and returns the results of the admitted prefix
together with a structured rate-limited condition carrying the configured
retry-after duration. -/
theorem rate_limit_surfaced (cfg : OrchestratorConfig)
    (data : Market → List SourceSnapshot) (budget : ℕ)
    (markets : List Market) :
    ((markets.map fun m => sourceCost (data m)).sum ≤ budget →
      runBudgeted cfg data budget markets =
        BatchOutcome.complete
          (markets.map fun m => analyzeOne cfg.grader m (data m))) ∧
    (budget < (markets.map fun m => sourceCost (data m)).sum →
      runBudgeted cfg data budget markets =
        BatchOutcome.rateLimited
          ((admitted data budget markets).map
            (fun m => analyzeOne cfg.grader m (data m)))
          cfg.retryAfter) := by
  induction markets generalizing budget with
  | nil =>
      constructor
      · intro _
        rfl
      · intro h
        simp at h
  | cons m ms ih =>
      constructor
      · intro h
        simp only [List.map_cons, List.sum_cons] at h
        have hc : sourceCost (data m) ≤ budget := by omega
        have hrest : (ms.map fun x => sourceCost (data x)).sum ≤
            budget - sourceCost (data m) := by omega
        simp only [runBudgeted, if_pos hc,
          (ih (budget - sourceCost (data m))).1 hrest, List.map_cons]
      · intro h
        simp only [List.map_cons, List.sum_cons] at h
        by_cases hc : sourceCost (data m) ≤ budget
        · have hrest : budget - sourceCost (data m) <
              (ms.map fun x => sourceCost (data x)).sum := by omega
          simp only [runBudgeted, if_pos hc,
            (ih (budget - sourceCost (data m))).2 hrest, admitted,
            List.map_cons]
        · simp only [runBudgeted, if_neg hc, admitted, List.map_nil]

/-- Witness for C8: three outbound calls per market against a budget of four
admits exactly one of the ten markets and surfaces the rate-limited
condition with the configured retry-after of 7. -/
theorem rate_limit_surfaced_witness :
    runBudgeted ⟨defaultGrader, 7⟩ failData 4 tenMarkets =
      BatchOutcome.rateLimited
        ((admitted failData 4 tenMarkets).map
          (fun m => analyzeOne defaultGrader m (failData m)))
        7 :=
  (rate_limit_surfaced ⟨defaultGrader, 7⟩ failData 4 tenMarkets).2
    (by simp [tenMarkets, failData, failSnaps, sourceCost])

/-- C9: the single-market analysis is a pure function of the market snapshot
and the provider data — two calls on equal inputs yield identical results,
with no hidden randomness. -/
theorem analyze_one_deterministic (cfg : GraderConfig) (m₁ m₂ : Market)
    (snaps₁ snaps₂ : List SourceSnapshot) (hm : m₁ = m₂)
    (hs : snaps₁ = snaps₂) :
    analyzeOne cfg m₁ snaps₁ = analyzeOne cfg m₂ snaps₂ := by
  subst hm
  subst hs
  rfl

/-- Witness for C9: two calls on the scenario input agree. -/
theorem analyze_one_deterministic_witness :
    analyzeOne defaultGrader btcMarket [btcSnap] =
      analyzeOne defaultGrader btcMarket [btcSnap] :=
  analyze_one_deterministic defaultGrader btcMarket btcMarket
    [btcSnap] [btcSnap] rfl rfl

/-- C10 counterexample: a result object whose divergence field is null — a
shape the claim itself admits for zero-source results — refutes the claim's
universal over every formatting client script: the single-market scripts'
expression does not coerce the null to 0 but fails on it, while the batch
scripts' `or 0` expression yields 0. -/
theorem client_divergence_counterexample :
    formatNoCoerce ⟨some PyVal.null⟩ = none ∧
    divOf ⟨some PyVal.null⟩ = 0 :=
  ⟨rfl, rfl⟩

/-- C10 (amended): the coercion shared by the batch scripts (run-audit.py
line 43, test-batch.py line 36, test-full.py line 36) is total — absent and
null divergence fields both coerce to 0 and numeric values pass through —
whereas the single-market scripts (test-single.py line 46, test-politics.py
line 48, test-targeted.py line 33) format the raw `get` result without
`or 0`, which is total for an absent or numeric field but fails on a null
field. -/
theorem client_divergence_coercion_split (q : ℚ) :
    (divOf ⟨none⟩ = 0 ∧ divOf ⟨some PyVal.null⟩ = 0 ∧
     divOf ⟨some (PyVal.num q)⟩ = q) ∧
    (formatNoCoerce ⟨none⟩ = some 0 ∧
     formatNoCoerce ⟨some (PyVal.num q)⟩ = some q ∧
     formatNoCoerce ⟨some PyVal.null⟩ = none) := by
  refine ⟨⟨rfl, rfl, ?_⟩, rfl, rfl, rfl⟩
  by_cases h : q = 0 <;>
    simp [divOf, pyOrZero, pyTruthy, getDivergence, h]
